import Mathlib

/-!
Shallow embedding of the ATR-Adaptive-Stop-Loss-Bot core
(`src/calculator.py`, `src/utils.py`, `src/atr_processor.py`).

Prices, ATR values and tick sizes are modelled as exact rationals (ℚ);
the spec itself states the algorithms must be reproducible in formula
terms, not floating-point-exact.  Python `None` becomes `Option`,
dictionaries become functions `String → Option _` or association lists,
and the per-symbol `try/except` boundary of `_process_symbol` becomes an
`Except` input for the fallible bar fetch.
-/

namespace ATRBot

/-- Status component of `compute_stop_loss`'s return value:
the Python strings `'new'` and `'held'`. -/
inductive StopStatus where
  | new : StopStatus
  | held : StopStatus
deriving DecidableEq, Repr

/-- `contract_details` dict as read by the calculator: `minTick`
(absent key ⇒ `none`), `priceMagnifier` (read with default `1`) and
`mdSizeMultiplier` (absent key ⇒ `none`). -/
structure ContractDetails where
  minTick : Option ℚ := none
  priceMagnifier : ℚ := 1
  mdSizeMultiplier : Option ℚ := none
deriving DecidableEq, Repr

/-- The `position_data` dict fields the calculator reads, with the
defaults the Python `.get` calls supply. -/
structure PositionData where
  symbol : String
  contract_details : ContractDetails := {}
  positions_held : ℚ := 0
  current_price : ℚ := 0
  avg_cost : ℚ := 0
  multiplier : ℚ := 1
deriving DecidableEq, Repr

/-- The `highest_stop_losses` dict: per-symbol ratchet store. -/
def Store : Type := String → Option ℚ

/-- Empty ratchet store (no entries). -/
def Store.empty : Store := fun _ => none

/-- Python `highest_stop_losses.get(symbol, 0)`. -/
def Store.getD0 (s : Store) (symbol : String) : ℚ :=
  (s symbol).getD 0

/-- Python `highest_stop_losses[symbol] = v`. -/
def Store.set (s : Store) (symbol : String) (v : ℚ) : Store :=
  fun t => if t = symbol then some v else s t

/-- Integer truncation toward zero, the semantics of Python
`Decimal.quantize(Decimal('1'), rounding=ROUND_DOWN)`. -/
def truncQ (x : ℚ) : ℤ :=
  if 0 ≤ x then ⌊x⌋ else ⌈x⌉

/-- `calculator.py` lines 79-88: exact-decimal tick rounding,
`(raw / tick).quantize(1, ROUND_DOWN) * tick`. -/
def roundToTick (raw_stop min_tick : ℚ) : ℚ :=
  (truncQ (raw_stop / min_tick) : ℚ) * min_tick

/-- `calculator.py` lines 71-89: the raw stop `current_price -
atr_value * atr_ratio` (the code does not branch on position side
here), tick-rounded when `minTick` is present, positive and the
quantity is nonzero. -/
def final_stop_of (position_data : PositionData) (current_price atr_value atr_ratio : ℚ) : ℚ :=
  let raw_stop := current_price - atr_value * atr_ratio
  match position_data.contract_details.minTick with
  | some t =>
      -- Python: `if min_tick and min_tick > 0 and quantity != 0`
      if 0 < t ∧ position_data.positions_held ≠ 0 then roundToTick raw_stop t
      else raw_stop
  | none => raw_stop

/-- `PortfolioCalculator.compute_stop_loss` (`calculator.py` lines
60-117).  Returns `((final_stop, status), updated highest_stop_losses)`.
In the short branch, the Python code fetches the previous value with
default `float('inf')`; any finite stop compares `<` against infinity,
so the `none` case always stores and the `inf`-returning `held` arm is
unreachable — the `match` below reflects that. -/
def compute_stop_loss (store : Store) (position_data : PositionData)
    (current_price : ℚ) (atr_value : Option ℚ) (atr_ratio : ℚ)
    (apply_ratchet : Bool := true) : (ℚ × StopStatus) × Store :=
  let symbol := position_data.symbol
  -- `if atr_value is None or current_price <= 0`
  match atr_value with
  | none => ((store.getD0 symbol, .held), store)
  | some atr =>
    if current_price ≤ 0 then ((store.getD0 symbol, .held), store)
    else
      let final_stop := final_stop_of position_data current_price atr atr_ratio
      let prev_highest := store.getD0 symbol
      if apply_ratchet then
        if 0 < position_data.positions_held then
          -- long: new stop must be strictly higher than previous highest
          if prev_highest < final_stop then
            ((final_stop, .new), store.set symbol final_stop)
          else
            ((prev_highest, .held), store)
        else
          -- short (and, by fall-through, flat) branch:
          -- `prev_highest_short = highest_stop_losses.get(symbol, float('inf'))`
          match store symbol with
          | none => ((final_stop, .new), store.set symbol final_stop)
          | some v =>
            if final_stop < v then
              ((final_stop, .new), store.set symbol final_stop)
            else
              ((v, .held), store)
      else
        ((final_stop, .new), store)

/-! ## Point values and risk (`utils.py`, `calculator.py` lines 119-140) -/

/-- `utils.CONTRACT_POINT_VALUES`: static per-instrument dollar value per
1.00 displayed price move. -/
def CONTRACT_POINT_VALUES : List (String × ℚ) :=
  [("ES", 50), ("NQ", 20), ("YM", 5), ("RTY", 50),
   ("MES", 5), ("MNQ", 2), ("MYM", 1/2), ("M2K", 5),
   ("ZN", 1000), ("ZB", 1000), ("ZF", 1000), ("ZT", 2000),
   ("MZN", 100), ("10Y", 1000), ("2YY", 2000), ("30Y", 1000),
   ("ZC", 50), ("ZS", 50), ("ZW", 50), ("ZM", 100), ("ZL", 600),
   ("HE", 400), ("LE", 400), ("GF", 500),
   ("MZC", 5), ("MZS", 10), ("MZW", 5), ("MZM", 10), ("MZL", 60),
   ("GC", 100), ("SI", 5000), ("HG", 25000), ("PL", 50),
   ("MGC", 10), ("SIL", 1000), ("MHG", 2500),
   ("CL", 1000), ("NG", 10000), ("RB", 420), ("HO", 420),
   ("MCL", 100), ("MNG", 1000),
   ("EUR", 125000), ("6E", 125000), ("6J", 12500000), ("6B", 62500),
   ("6A", 100000), ("6C", 100000),
   ("M6E", 12500)]

/-- `utils.get_point_value`: explicit table first, then derivation from
`priceMagnifier`/`mdSizeMultiplier`, finally the raw contract
multiplier (or 1 when that is not positive). -/
def get_point_value (symbol : String) (contract_details : ContractDetails)
    (multiplier : ℚ) : ℚ :=
  match (CONTRACT_POINT_VALUES.find? (fun p => p.1 = symbol)).map Prod.snd with
  | some v => v
  | none =>
    match contract_details.mdSizeMultiplier with
    | some md =>
        if 1 < contract_details.priceMagnifier then md / contract_details.priceMagnifier
        else if 1 < md then md
        else if 0 < multiplier then multiplier else 1
    | none => if 0 < multiplier then multiplier else 1

/-- `PortfolioCalculator.calculate_risk` (`calculator.py` lines
119-140).  Python's truthiness test `if computed_stop` is `≠ 0` for a
numeric stop; `hypothetical_account_value` is the constant `6000.0`
(its `> 0` guard is always true).  Note the function reads neither
`avg_cost` nor any "NO RISK" sentinel. -/
def calculate_risk (position_data : PositionData) (computed_stop : ℚ) : ℚ × ℚ :=
  let current_price := position_data.current_price
  if computed_stop ≠ 0 ∧ 0 < current_price then
    let risk_in_points := |current_price - computed_stop|
    let point_value := get_point_value position_data.symbol
      position_data.contract_details position_data.multiplier
    let risk_value := risk_in_points * point_value * |position_data.positions_held|
    (risk_value, risk_value / 6000 * 100)
  else
    (0, 0)

/-! ## Incremental TR/ATR (`calculator.py` lines 21-58) -/

/-- One OHLC bar.  `date` is the bar's timestamp; ISO-8601 strings of a
fixed format compare lexicographically in chronological order, so the
timestamp key is modelled as a natural number. -/
structure Bar where
  date : ℕ := 0
  high : ℚ
  low : ℚ
  close : ℚ
deriving DecidableEq, Repr

/-- True Range of a bar given the previous close (`max(tr1, tr2, tr3)`). -/
def true_range (prev_close high low : ℚ) : ℚ :=
  max (max (high - low) |high - prev_close|) |low - prev_close|

/-- `PortfolioCalculator.calculate_tr_and_atr` (`calculator.py` lines
21-58).  `utilATR` abstracts the external `ib_insync.util.ATR`
fallback: `some a` models a non-empty series whose last element is `a`,
`none` models the exception branch returning `(current_tr, None)`.
`symbol` is the optional keyword argument; Python truthiness of a
string is `≠ ""`. -/
def calculate_tr_and_atr (utilATR : List Bar → Option ℚ)
    (market_statuses : String → Option String)
    (df : List Bar) (prior_atr : Option ℚ) (symbol : Option String := none) :
    ℚ × Option ℚ :=
  let market_closed : Bool :=
    match symbol with
    | some s => s != "" && market_statuses s == some "CLOSED"
    | none => false
  if df.length < 2 then (0, none)
  else if market_closed then
    -- market closed: no new price action, TR is 0, reuse the prior ATR
    (0, prior_atr)
  else
    match df.reverse with
    | cur :: prev :: _ =>
      -- `df['close'].iloc[-2]`, `df['high'].iloc[-1]`, `df['low'].iloc[-1]`
      let current_tr := true_range prev.close cur.high cur.low
      if current_tr = 0 then (current_tr, prior_atr)
      else
        match prior_atr with
        | none => (current_tr, utilATR df)
        | some p => (current_tr, some ((p * 13 + current_tr) / 14))
    | _ => (0, none)  -- unreachable: df.length ≥ 2

/-! ## ATR state engine (`atr_processor.py` lines 162-344) -/

/-- `ATRProcessor._process_symbol` lines 241-289, the ATR derivation
from the timestamp-sorted TR history values.  Returns
`(current_tr, current_atr, previous_atr)`.

* fewer than 15 TR entries: `previous_atr` (and hence `current_atr`)
  stays `none` — the code's own log reads "`{n}/15 TRs required`";
* otherwise the chain is rebuilt: simple mean of the first 14 TRs, then
  Wilder smoothing over indices `14 .. len-2` (`range(14, len-1)`)
  gives `previous_atr`, and
  `current_atr = (previous_atr * 13 + current_tr) / 14`.

The code's "fallback SMA" step (lines 279-283) is guarded by
`previous_atr is None and len(sorted_trs) >= 15`, which step 1 has
already made impossible, so it is dead and omitted here. -/
def deriveATR (sorted_trs : List ℚ) : ℚ × Option ℚ × Option ℚ :=
  let current_tr := sorted_trs.getLast?.getD 0
  let previous_atr : Option ℚ :=
    if 15 ≤ sorted_trs.length then
      let initial_atr := (sorted_trs.take 14).sum / 14
      some (((sorted_trs.drop 14).dropLast).foldl
        (fun prev_atr tr_val => (prev_atr * 13 + tr_val) / 14) initial_atr)
    else none
  let current_atr := previous_atr.map (fun p => (p * 13 + current_tr) / 14)
  (current_tr, current_atr, previous_atr)

/-- `ATRProcessor._calculate_true_ranges` (lines 162-180): the TR of
every bar that has a predecessor, keyed by that bar's own timestamp. -/
def trRows : List Bar → List (ℕ × ℚ)
  | b0 :: b1 :: rest =>
      (b1.date, true_range b0.close b1.high b1.low) :: trRows (b1 :: rest)
  | _ => []

/-- Insert into a timestamp-sorted association list, overwriting an
existing key: the dict write `tr_history[timestamp_key] = tr` followed
by `sorted(tr_history.items())` on read is modelled by keeping the
history sorted by key at all times. -/
def insertTR : List (ℕ × ℚ) → ℕ × ℚ → List (ℕ × ℚ)
  | [], kv => [kv]
  | (k, v) :: rest, (k', v') =>
      if k' < k then (k', v') :: (k, v) :: rest
      else if k' = k then (k', v') :: rest
      else (k, v) :: insertTR rest (k', v')

/-- Per-(symbol, candle-size) persisted ATR state
(`{'last_atr': ..., 'tr_history': {...}}`); `run` enforces a single
candle size per symbol, so the state is keyed by symbol here. -/
structure SymbolCandleState where
  last_atr : Option ℚ := none
  tr_history : List (ℕ × ℚ) := []
deriving DecidableEq, Repr

/-- `atr_state`: the per-symbol persisted map. -/
def TrState : Type := String → Option SymbolCandleState

/-- The per-symbol result record `_process_symbol` returns (the
`candle_size` key and the display-only `atr_history` side map are
omitted). -/
structure AtrResult where
  symbol : String
  tr : Option ℚ
  atr : Option ℚ
  previous_atr : Option ℚ
deriving DecidableEq, Repr

/-- The all-null neutral result of `_process_symbol`'s `except` branch. -/
def neutralResult (symbol : String) : AtrResult :=
  { symbol := symbol, tr := none, atr := none, previous_atr := none }

/-- `ATRProcessor._process_symbol` (lines 182-315).  The fallible bar
fetch (`qualifyContractsAsync` + `reqHistoricalDataAsync`) is the
`fetch` argument: `.error` models any exception raised inside the `try`
block, which the `except` arm turns into the neutral all-null result,
leaving the state untouched (the raise happens before any state
write). -/
def process_symbol (st : TrState) (symbol : String)
    (fetch : Except String (List Bar)) : AtrResult × TrState :=
  match fetch with
  | .error _ => (neutralResult symbol, st)
  | .ok bars =>
    if bars.length < 2 then
      -- `if not bars or len(bars) < 2`: tr 0.0, atr None, previous_atr 0.0
      ({ symbol := symbol, tr := some 0, atr := none, previous_atr := some 0 }, st)
    else
      let st0 := (st symbol).getD {}
      let tr_history := (trRows bars).foldl insertTR st0.tr_history
      let sorted_trs := tr_history.map Prod.snd
      let res := deriveATR sorted_trs
      ({ symbol := symbol, tr := some res.1, atr := res.2.1, previous_atr := res.2.2 },
       fun t => if t = symbol then
                  some { last_atr := res.2.1, tr_history := tr_history }
                else st t)

/-- `ATRProcessor.run` (lines 317-344): one `_process_symbol` task per
position, gathered into a list of per-symbol results.  `asyncio.gather`
preserves task order and the spec notes correctness is independent of
the parallel execution, so the batch is modelled sequentially. -/
def runBatch (st : TrState) :
    List (String × Except String (List Bar)) → List AtrResult × TrState
  | [] => ([], st)
  | (symbol, fetch) :: rest =>
      let out := process_symbol st symbol fetch
      let outs := runBatch out.2 rest
      (out.1 :: outs.1, outs.2)

/-! ## Call-sequence harness for the ratchet -/

/-- One valid `compute_stop_loss` call for a symbol: the ATR value is
present (a raw stop is actually computed) and the ratchet is applied. -/
structure StopCall where
  position_data : PositionData
  current_price : ℚ
  atr_value : ℚ
  atr_ratio : ℚ

/-- Run a sequence of ratcheted `compute_stop_loss` calls, threading the
`highest_stop_losses` store, and collect the returned stop prices. -/
def ratchetStops (store : Store) : List StopCall → List ℚ
  | [] => []
  | c :: cs =>
    let out := compute_stop_loss store c.position_data c.current_price
      (some c.atr_value) c.atr_ratio true
    out.1.1 :: ratchetStops out.2 cs

/-! ## Theorems -/

/-- C1: the spec claims a short position (quantity < 0) with non-null
ATR and positive price gets `raw_stop = current_price + atr * atr_ratio`.
The code computes `current_price - atr_value * atr_ratio` without
branching on position side: at `current_price = 100`, `atr = 2`,
`atr_ratio = 3/2`, a short receives stop `97 = 100 - 3`, below the
market, not the claimed `103 = 100 + 3`. -/
theorem C1_short_raw_stop_uses_subtraction :
    (compute_stop_loss Store.empty { symbol := "MES", positions_held := -1 }
      100 (some 2) (3/2) true).1 = (97, .new) ∧
    (97 : ℚ) = 100 - 2 * (3/2) ∧ (97 : ℚ) ≠ 100 + 2 * (3/2) := by
  refine ⟨?_, by norm_num, by norm_num⟩
  norm_num [compute_stop_loss, final_stop_of, Store.empty, Store.getD0]

/-- C4: the spec claims `calculate_risk` returns the sentinel
`("NO RISK", 0.0)` for a long whose computed stop is at or above the
average cost.  The code never produces any sentinel and never reads
`avg_cost`: at the claim's own boundary input (long, `avg_cost = 100`,
`computed_stop = 100`, `current_price = 101`, symbol `ES`, one
contract) it returns the numeric pair `(50, 5/6)`, and the result is
identical when `avg_cost` is `0` instead. -/
theorem C4_risk_has_no_sentinel_and_ignores_avg_cost :
    calculate_risk { symbol := "ES", positions_held := 1,
                     current_price := 101, avg_cost := 100 } 100 = (50, 5/6) ∧
    calculate_risk { symbol := "ES", positions_held := 1,
                     current_price := 101, avg_cost := 0 } 100 = (50, 5/6) ∧
    (0 : ℚ) < 50 := by
  refine ⟨?_, ?_, by norm_num⟩ <;>
    norm_num [calculate_risk, get_point_value, CONTRACT_POINT_VALUES]

/-- C3 counterexample: for a short position with `minTick = 1/4` and
raw stop `100.37` (price `101.37`, atr 1, ratio 1) the code returns
`100.25 = 401/4`, not the `100.50 = 201/2` the claim's rounding-up rule
for shorts demands. -/
theorem C3_counterexample_short_rounds_down :
    (compute_stop_loss Store.empty
      { symbol := "MES", positions_held := -1,
        contract_details := { minTick := some (1/4) } }
      (10137/100) (some 1) 1 true).1.1 = 401/4 ∧
    (401/4 : ℚ) ≠ 201/2 := by
  refine ⟨?_, by norm_num⟩
  norm_num [compute_stop_loss, final_stop_of, Store.empty, Store.getD0,
    roundToTick, truncQ]

/-- C5 counterexample: with exactly 14 TR entries (all equal to 1) the
derived ATR is still `none`, not the simple mean `1` the claim
requires; the code's chain needs 15 entries. -/
theorem C5_counterexample_fourteen_trs_give_no_atr :
    (deriveATR (List.replicate 14 1)).2.1 = none ∧
    (List.replicate 14 (1 : ℚ)).sum / 14 = 1 ∧
    (none : Option ℚ) ≠ some 1 := by
  refine ⟨by norm_num [deriveATR], ?_, by decide⟩
  simp [List.sum_replicate]
  norm_num

/-- C7 counterexample: a flat position (quantity 0) with ATR 1, ratio 1
and price 10 receives `(9, new)` — the raw stop through the short
branch — not the `(0.0, held)` the claim states. -/
theorem C7_counterexample_flat_not_held_zero :
    (compute_stop_loss Store.empty { symbol := "MES", positions_held := 0 }
      10 (some 1) 1 true).1 = (9, .new) ∧
    ((9 : ℚ), StopStatus.new) ≠ ((0 : ℚ), StopStatus.held) := by
  refine ⟨?_, by norm_num⟩
  norm_num [compute_stop_loss, final_stop_of, Store.empty, Store.getD0]

/-- C3 (amended): when `minTick > 0` and quantity ≠ 0,
`compute_stop_loss` rounds the raw stop *down* to a tick multiple for
longs and shorts alike (`ROUND_DOWN`, toward zero): for a non-negative
raw stop the final stop is `⌊raw/t⌋ * t`, at most the raw stop and less
than one tick below it, regardless of position side. -/
theorem C3_amended_round_down_both_sides
    (store : Store) (pos : PositionData) (current_price atr atr_ratio t : ℚ)
    (ht : pos.contract_details.minTick = some t) (htpos : 0 < t)
    (hq : pos.positions_held ≠ 0) (hp : 0 < current_price)
    (hraw : 0 ≤ current_price - atr * atr_ratio) :
    (compute_stop_loss store pos current_price (some atr) atr_ratio false).1.1
      = (⌊(current_price - atr * atr_ratio) / t⌋ : ℚ) * t ∧
    (⌊(current_price - atr * atr_ratio) / t⌋ : ℚ) * t ≤ current_price - atr * atr_ratio ∧
    current_price - atr * atr_ratio - (⌊(current_price - atr * atr_ratio) / t⌋ : ℚ) * t < t := by
  have hcond : ¬ current_price ≤ 0 := not_le.mpr hp
  have htne : t ≠ 0 := ne_of_gt htpos
  have hx : truncQ ((current_price - atr * atr_ratio) / t)
      = ⌊(current_price - atr * atr_ratio) / t⌋ := by
    unfold truncQ
    exact if_pos (div_nonneg hraw htpos.le)
  have hfl : ((⌊(current_price - atr * atr_ratio) / t⌋ : ℚ)) * t
      ≤ current_price - atr * atr_ratio := by
    have h1 : ((⌊(current_price - atr * atr_ratio) / t⌋ : ℚ))
        ≤ (current_price - atr * atr_ratio) / t := Int.floor_le _
    have h2 := mul_le_mul_of_nonneg_right h1 htpos.le
    rwa [div_mul_cancel₀ _ htne] at h2
  refine ⟨?_, hfl, ?_⟩
  · simp [compute_stop_loss, hcond, final_stop_of, ht, htpos, hq, roundToTick, hx]
  · have h1 : (current_price - atr * atr_ratio) / t
        < ⌊(current_price - atr * atr_ratio) / t⌋ + 1 := Int.lt_floor_add_one _
    have h2 := mul_lt_mul_of_pos_right h1 htpos
    rw [div_mul_cancel₀ _ htne, add_mul, one_mul] at h2
    linarith

/-- C3 witness: long, `minTick = 1/4`, price 101.37, atr 1, ratio 1 —
the rounded stop is `⌊100.37 / 0.25⌋ * 0.25`. -/
theorem C3_amended_round_down_both_sides_witness :
    (compute_stop_loss Store.empty
      { symbol := "MES", positions_held := 1,
        contract_details := { minTick := some (1/4) } }
      (10137/100) (some 1) 1 false).1.1
      = (⌊((10137/100 : ℚ) - 1 * 1) / (1/4)⌋ : ℚ) * (1/4) ∧
    (⌊((10137/100 : ℚ) - 1 * 1) / (1/4)⌋ : ℚ) * (1/4) ≤ (10137/100 : ℚ) - 1 * 1 ∧
    (10137/100 : ℚ) - 1 * 1 - (⌊((10137/100 : ℚ) - 1 * 1) / (1/4)⌋ : ℚ) * (1/4) < 1/4 :=
  C3_amended_round_down_both_sides Store.empty _ (10137/100) 1 1 (1/4)
    rfl (by norm_num) (by norm_num) (by norm_num) (by norm_num)

/-- C5 (amended): with at most 14 TR entries (so in particular with
exactly 13 or exactly 14) the derived ATR and previous ATR stay `none`;
with exactly 15 entries the previous ATR is initialized as the simple
mean of the first 14 TR values and the current ATR is one Wilder step
`(previous * 13 + last TR) / 14`. -/
theorem C5_amended_atr_needs_fifteen_trs (l : List ℚ) :
    (l.length ≤ 14 → (deriveATR l).2.1 = none ∧ (deriveATR l).2.2 = none) ∧
    (l.length = 15 →
      (deriveATR l).2.2 = some ((l.take 14).sum / 14) ∧
      (deriveATR l).2.1 = some ((((l.take 14).sum / 14) * 13 + l.getLast?.getD 0) / 14)) := by
  constructor
  · intro h
    have h15 : ¬ 15 ≤ l.length := by omega
    simp [deriveATR, h15]
  · intro h
    have h15 : 15 ≤ l.length := by omega
    have h1 : (l.drop 14).dropLast = [] := by
      have hlen : (l.drop 14).length = 1 := by simp [h]
      rcases hd : l.drop 14 with _ | ⟨a, _ | ⟨b, tl⟩⟩ <;> simp_all
    simp [deriveATR, h15, h1]

/-- C5 witness: 13 equal TRs give no ATR; 15 equal TRs of value 1 give
previous ATR `mean = 1` and one smoothing step for the current ATR. -/
theorem C5_amended_atr_needs_fifteen_trs_witness :
    ((deriveATR (List.replicate 13 (1 : ℚ))).2.1 = none ∧
     (deriveATR (List.replicate 13 (1 : ℚ))).2.2 = none) ∧
    ((deriveATR (List.replicate 15 (1 : ℚ))).2.2
        = some (((List.replicate 15 (1 : ℚ)).take 14).sum / 14) ∧
     (deriveATR (List.replicate 15 (1 : ℚ))).2.1
        = some (((((List.replicate 15 (1 : ℚ)).take 14).sum / 14) * 13
            + (List.replicate 15 (1 : ℚ)).getLast?.getD 0) / 14)) :=
  ⟨(C5_amended_atr_needs_fifteen_trs (List.replicate 13 1)).1 (by simp),
   (C5_amended_atr_needs_fifteen_trs (List.replicate 15 1)).2 (by simp)⟩

/-- C6: when the symbol's market-session status is `CLOSED` and at
least 2 bars are supplied, `calculate_tr_and_atr` returns TR `0` and
carries the prior ATR forward unchanged. -/
theorem C6_market_closed_carries_atr_forward
    (utilATR : List Bar → Option ℚ) (market_statuses : String → Option String)
    (df : List Bar) (prior_atr : Option ℚ) (s : String)
    (hlen : 2 ≤ df.length) (hs : s ≠ "")
    (hclosed : market_statuses s = some "CLOSED") :
    calculate_tr_and_atr utilATR market_statuses df prior_atr (some s)
      = (0, prior_atr) := by
  have h1 : ¬ df.length < 2 := not_lt.mpr hlen
  simp [calculate_tr_and_atr, h1, hclosed, hs]

/-- C6 witness: two bars, prior ATR 5, status map constantly `CLOSED`. -/
theorem C6_market_closed_carries_atr_forward_witness :
    calculate_tr_and_atr (fun _ => none) (fun _ => some "CLOSED")
      [{ high := 10, low := 9, close := 9 }, { high := 11, low := 10, close := 11 }]
      (some 5) (some "ES") = (0, some 5) :=
  C6_market_closed_carries_atr_forward _ _ _ _ _ (by decide) (by decide) rfl

/-- C7 (amended): a flat position (quantity 0) with non-null ATR and
positive price is handled by the short branch, skipping tick rounding;
with no prior ratchet entry for the symbol it returns the raw stop
`current_price - atr * atr_ratio` with status `new` — not
`(0.0, held)`. -/
theorem C7_amended_flat_takes_short_branch
    (store : Store) (pos : PositionData) (current_price atr atr_ratio : ℚ)
    (hq : pos.positions_held = 0) (hp : 0 < current_price)
    (hnone : store pos.symbol = none) :
    (compute_stop_loss store pos current_price (some atr) atr_ratio true).1
      = (current_price - atr * atr_ratio, .new) := by
  have hcond : ¬ current_price ≤ 0 := not_le.mpr hp
  have hfinal : final_stop_of pos current_price atr atr_ratio
      = current_price - atr * atr_ratio := by
    unfold final_stop_of
    cases h : pos.contract_details.minTick with
    | none => rfl
    | some t => simp [hq]
  simp [compute_stop_loss, hcond, hfinal, hq, hnone]

/-- C7 witness: flat position, price 10, atr 1, ratio 1, empty store —
the returned pair is `(10 - 1 * 1, new)`. -/
theorem C7_amended_flat_takes_short_branch_witness :
    (compute_stop_loss Store.empty { symbol := "ES", positions_held := 0 }
      10 (some 1) 1 true).1 = (10 - 1 * 1, .new) :=
  C7_amended_flat_takes_short_branch Store.empty _ 10 1 1
    rfl (by norm_num) rfl

/-- C9: with `apply_ratchet = false` (and non-null ATR, positive
price), `compute_stop_loss` leaves the ratchet store untouched, returns
status `new`, the returned pair does not depend on the store's
contents, and the returned stop is exactly the freshly computed,
tick-rounded stop. -/
theorem C9_no_ratchet_is_pure_and_fresh
    (store store' : Store) (pos : PositionData) (current_price atr atr_ratio : ℚ)
    (hp : 0 < current_price) :
    (compute_stop_loss store pos current_price (some atr) atr_ratio false).2 = store ∧
    (compute_stop_loss store pos current_price (some atr) atr_ratio false).1.2 = .new ∧
    (compute_stop_loss store pos current_price (some atr) atr_ratio false).1
      = (compute_stop_loss store' pos current_price (some atr) atr_ratio false).1 ∧
    (compute_stop_loss store pos current_price (some atr) atr_ratio false).1.1
      = final_stop_of pos current_price atr atr_ratio := by
  have hcond : ¬ current_price ≤ 0 := not_le.mpr hp
  simp [compute_stop_loss, hcond]

/-- C9 witness: concrete what-if call on a nonempty store versus the
empty store. -/
theorem C9_no_ratchet_is_pure_and_fresh_witness :
    (compute_stop_loss (Store.set Store.empty "ES" 500)
        { symbol := "ES", positions_held := 1 } 100 (some 2) 1 false).2
      = Store.set Store.empty "ES" 500 ∧
    (compute_stop_loss (Store.set Store.empty "ES" 500)
        { symbol := "ES", positions_held := 1 } 100 (some 2) 1 false).1.2 = .new ∧
    (compute_stop_loss (Store.set Store.empty "ES" 500)
        { symbol := "ES", positions_held := 1 } 100 (some 2) 1 false).1
      = (compute_stop_loss Store.empty
        { symbol := "ES", positions_held := 1 } 100 (some 2) 1 false).1 ∧
    (compute_stop_loss (Store.set Store.empty "ES" 500)
        { symbol := "ES", positions_held := 1 } 100 (some 2) 1 false).1.1
      = final_stop_of { symbol := "ES", positions_held := 1 } 100 2 1 :=
  C9_no_ratchet_is_pure_and_fresh (Store.set Store.empty "ES" 500) Store.empty
    _ 100 2 1 (by norm_num)

/-- C10: with the ratchet applied, a long position's store entry stays
strictly positive: starting from a store whose entry for the symbol is
absent or positive, any value present after the call is positive; and
when no entry exists and the computed-and-rounded stop is ≤ 0 (the
implicit baseline of the `get(symbol, 0)` read), the call returns
`(0, held)` and leaves the store unchanged — so a first-seen long does
not always get status `new`. -/
theorem C10_long_ratchet_stores_only_positive
    (store : Store) (pos : PositionData) (current_price atr atr_ratio : ℚ)
    (hq : 0 < pos.positions_held) (hp : 0 < current_price)
    (hinv : ∀ v, store pos.symbol = some v → 0 < v) :
    (∀ w, (compute_stop_loss store pos current_price (some atr) atr_ratio true).2
        pos.symbol = some w → 0 < w) ∧
    (store pos.symbol = none →
      final_stop_of pos current_price atr atr_ratio ≤ 0 →
      compute_stop_loss store pos current_price (some atr) atr_ratio true
        = ((0, .held), store)) := by
  have hcond : ¬ current_price ≤ 0 := not_le.mpr hp
  have heq : compute_stop_loss store pos current_price (some atr) atr_ratio true
      = if Store.getD0 store pos.symbol < final_stop_of pos current_price atr atr_ratio
        then ((final_stop_of pos current_price atr atr_ratio, .new),
              Store.set store pos.symbol (final_stop_of pos current_price atr atr_ratio))
        else ((Store.getD0 store pos.symbol, .held), store) := by
    simp [compute_stop_loss, hcond, hq]
  constructor
  · intro w hw
    rw [heq] at hw
    by_cases hlt : Store.getD0 store pos.symbol
        < final_stop_of pos current_price atr atr_ratio
    · rw [if_pos hlt] at hw
      simp [Store.set] at hw
      subst hw
      cases hsym : store pos.symbol with
      | none =>
        have h0 : Store.getD0 store pos.symbol = 0 := by
          simp [Store.getD0, hsym]
        rw [h0] at hlt
        exact hlt
      | some v =>
        have hv := hinv v hsym
        have h0 : Store.getD0 store pos.symbol = v := by
          simp [Store.getD0, hsym]
        rw [h0] at hlt
        linarith
    · rw [if_neg hlt] at hw
      exact hinv w hw
  · intro hnone hF
    have h0 : Store.getD0 store pos.symbol = 0 := by
      simp [Store.getD0, hnone]
    rw [heq, if_neg (by rw [h0]; exact not_lt.mpr hF), h0]

/-- C10 witness: first-seen long with raw stop `1 - 2 * 1 = -1 ≤ 0`
returns `(0, held)` and creates no entry. -/
theorem C10_long_ratchet_stores_only_positive_witness :
    compute_stop_loss Store.empty { symbol := "MES", positions_held := 1 }
      1 (some 2) 1 true = ((0, .held), Store.empty) :=
  (C10_long_ratchet_stores_only_positive Store.empty
      { symbol := "MES", positions_held := 1 } 1 2 1
      (by norm_num) (by norm_num)
      (fun v h => by simp [Store.empty] at h)).2
    rfl (by norm_num [final_stop_of])

/-- Unfolding equation for one ratcheted call in a stop sequence. -/
lemma ratchetStops_cons (store : Store) (c : StopCall) (cs : List StopCall) :
    ratchetStops store (c :: cs)
      = (compute_stop_loss store c.position_data c.current_price
           (some c.atr_value) c.atr_ratio true).1.1
        :: ratchetStops (compute_stop_loss store c.position_data c.current_price
           (some c.atr_value) c.atr_ratio true).2 cs := rfl

/-- One ratcheted long call: the returned stop is at least the stored
baseline before the call and becomes the stored baseline after it. -/
lemma ratchet_long_step (store : Store) (pos : PositionData)
    (current_price atr atr_ratio : ℚ)
    (hq : 0 < pos.positions_held) (hp : 0 < current_price) :
    Store.getD0 store pos.symbol
      ≤ (compute_stop_loss store pos current_price (some atr) atr_ratio true).1.1 ∧
    Store.getD0 (compute_stop_loss store pos current_price (some atr) atr_ratio true).2
        pos.symbol
      = (compute_stop_loss store pos current_price (some atr) atr_ratio true).1.1 := by
  have hcond : ¬ current_price ≤ 0 := not_le.mpr hp
  have heq : compute_stop_loss store pos current_price (some atr) atr_ratio true
      = if Store.getD0 store pos.symbol < final_stop_of pos current_price atr atr_ratio
        then ((final_stop_of pos current_price atr atr_ratio, .new),
              Store.set store pos.symbol (final_stop_of pos current_price atr atr_ratio))
        else ((Store.getD0 store pos.symbol, .held), store) := by
    simp [compute_stop_loss, hcond, hq]
  rw [heq]
  by_cases hlt : Store.getD0 store pos.symbol
      < final_stop_of pos current_price atr atr_ratio
  · rw [if_pos hlt]
    exact ⟨hlt.le, by simp [Store.getD0, Store.set]⟩
  · rw [if_neg hlt]
    exact ⟨le_refl _, rfl⟩

/-- One ratcheted short call: the returned stop is the stored value
after the call, and is at most any value stored before it. -/
lemma ratchet_short_step (store : Store) (pos : PositionData)
    (current_price atr atr_ratio : ℚ)
    (hq : pos.positions_held < 0) (hp : 0 < current_price) :
    (compute_stop_loss store pos current_price (some atr) atr_ratio true).2 pos.symbol
      = some (compute_stop_loss store pos current_price (some atr) atr_ratio true).1.1 ∧
    (∀ v, store pos.symbol = some v →
      (compute_stop_loss store pos current_price (some atr) atr_ratio true).1.1 ≤ v) := by
  have hcond : ¬ current_price ≤ 0 := not_le.mpr hp
  have hqn : ¬ 0 < pos.positions_held := by linarith
  have heq : compute_stop_loss store pos current_price (some atr) atr_ratio true
      = (match store pos.symbol with
         | none => ((final_stop_of pos current_price atr atr_ratio, .new),
             Store.set store pos.symbol (final_stop_of pos current_price atr atr_ratio))
         | some v =>
           if final_stop_of pos current_price atr atr_ratio < v then
             ((final_stop_of pos current_price atr atr_ratio, .new),
              Store.set store pos.symbol (final_stop_of pos current_price atr atr_ratio))
           else ((v, .held), store)) := by
    simp [compute_stop_loss, hcond, hqn]
  cases hsym : store pos.symbol with
  | none =>
    have hout : compute_stop_loss store pos current_price (some atr) atr_ratio true
        = ((final_stop_of pos current_price atr atr_ratio, .new),
           Store.set store pos.symbol (final_stop_of pos current_price atr atr_ratio)) := by
      rw [heq, hsym]
    refine ⟨?_, ?_⟩
    · rw [hout]
      simp [Store.set]
    · intro v hv
      exact Option.noConfusion hv
  | some v₀ =>
    have hout : compute_stop_loss store pos current_price (some atr) atr_ratio true
        = if final_stop_of pos current_price atr atr_ratio < v₀ then
            ((final_stop_of pos current_price atr atr_ratio, .new),
             Store.set store pos.symbol (final_stop_of pos current_price atr atr_ratio))
          else ((v₀, .held), store) := by
      rw [heq, hsym]
    by_cases hlt : final_stop_of pos current_price atr atr_ratio < v₀
    · refine ⟨?_, ?_⟩
      · rw [hout, if_pos hlt]
        simp [Store.set]
      · intro v hv
        injection hv with h
        subst h
        rw [hout, if_pos hlt]
        exact hlt.le
    · refine ⟨?_, ?_⟩
      · rw [hout, if_neg hlt]
        exact hsym
      · intro v hv
        injection hv with h
        subst h
        rw [hout, if_neg hlt]

/-- Sequences of valid ratcheted long calls produce non-decreasing
returned stops, from any initial store. -/
lemma ratchet_long_chain (sym : String) (cs : List StopCall) :
    ∀ (store : Store),
    (∀ c ∈ cs, c.position_data.symbol = sym) →
    (∀ c ∈ cs, 0 < c.current_price) →
    (∀ c ∈ cs, 0 < c.position_data.positions_held) →
    List.Chain' (· ≤ ·) (ratchetStops store cs) := by
  induction cs with
  | nil => intro store _ _ _; simp [ratchetStops]
  | cons c cs ih =>
    intro store hsym hp hq
    have h1 := ratchet_long_step store c.position_data c.current_price
      c.atr_value c.atr_ratio (hq c (by simp)) (hp c (by simp))
    have hrest := ih (compute_stop_loss store c.position_data c.current_price
        (some c.atr_value) c.atr_ratio true).2
      (fun d hd => hsym d (by simp [hd]))
      (fun d hd => hp d (by simp [hd]))
      (fun d hd => hq d (by simp [hd]))
    rw [ratchetStops_cons]
    rcases cs with _ | ⟨c', cs'⟩
    · simp [ratchetStops]
    · rw [ratchetStops_cons]
      rw [ratchetStops_cons] at hrest
      refine List.Chain'.cons ?_ hrest
      have h2 := ratchet_long_step
        (compute_stop_loss store c.position_data c.current_price
          (some c.atr_value) c.atr_ratio true).2
        c'.position_data c'.current_price c'.atr_value c'.atr_ratio
        (hq c' (by simp)) (hp c' (by simp))
      have e1 := h1.2
      have e2 := h2.1
      rw [hsym c (by simp)] at e1
      rw [hsym c' (by simp)] at e2
      rw [e1] at e2
      exact e2

/-- Sequences of valid ratcheted short calls produce non-increasing
returned stops, from any initial store. -/
lemma ratchet_short_chain (sym : String) (cs : List StopCall) :
    ∀ (store : Store),
    (∀ c ∈ cs, c.position_data.symbol = sym) →
    (∀ c ∈ cs, 0 < c.current_price) →
    (∀ c ∈ cs, c.position_data.positions_held < 0) →
    List.Chain' (fun a b => b ≤ a) (ratchetStops store cs) := by
  induction cs with
  | nil => intro store _ _ _; simp [ratchetStops]
  | cons c cs ih =>
    intro store hsym hp hq
    have h1 := ratchet_short_step store c.position_data c.current_price
      c.atr_value c.atr_ratio (hq c (by simp)) (hp c (by simp))
    have hrest := ih (compute_stop_loss store c.position_data c.current_price
        (some c.atr_value) c.atr_ratio true).2
      (fun d hd => hsym d (by simp [hd]))
      (fun d hd => hp d (by simp [hd]))
      (fun d hd => hq d (by simp [hd]))
    rw [ratchetStops_cons]
    rcases cs with _ | ⟨c', cs'⟩
    · simp [ratchetStops]
    · rw [ratchetStops_cons]
      rw [ratchetStops_cons] at hrest
      refine List.Chain'.cons ?_ hrest
      have h2 := ratchet_short_step
        (compute_stop_loss store c.position_data c.current_price
          (some c.atr_value) c.atr_ratio true).2
        c'.position_data c'.current_price c'.atr_value c'.atr_ratio
        (hq c' (by simp)) (hp c' (by simp))
      have e1 := h1.1
      rw [hsym c (by simp)] at e1
      have e2 := h2.2
      rw [hsym c' (by simp)] at e2
      exact e2 _ e1

/-- C2: for any sequence of ratcheted `compute_stop_loss` calls for one
symbol with valid data (non-null ATR, positive price), if the position
is long throughout the returned stop prices are non-decreasing, and if
it is short throughout they are non-increasing. -/
theorem C2_ratchet_monotone (sym : String) (store : Store) (calls : List StopCall)
    (hsym : ∀ c ∈ calls, c.position_data.symbol = sym)
    (hp : ∀ c ∈ calls, 0 < c.current_price) :
    ((∀ c ∈ calls, 0 < c.position_data.positions_held) →
      List.Chain' (· ≤ ·) (ratchetStops store calls)) ∧
    ((∀ c ∈ calls, c.position_data.positions_held < 0) →
      List.Chain' (fun a b => b ≤ a) (ratchetStops store calls)) :=
  ⟨fun hq => ratchet_long_chain sym calls store hsym hp hq,
   fun hq => ratchet_short_chain sym calls store hsym hp hq⟩

/-- C2 witness: two long calls (prices 100 then 110, atr 1, ratio 1)
give a non-decreasing stop sequence from the empty store. -/
theorem C2_ratchet_monotone_witness :
    List.Chain' (· ≤ ·) (ratchetStops Store.empty
      [{ position_data := { symbol := "ES", positions_held := 1 },
         current_price := 100, atr_value := 1, atr_ratio := 1 },
       { position_data := { symbol := "ES", positions_held := 1 },
         current_price := 110, atr_value := 1, atr_ratio := 1 }]) :=
  (C2_ratchet_monotone "ES" Store.empty _
      (by intro c hc; simp only [List.mem_cons, List.not_mem_nil, or_false] at hc
          rcases hc with rfl | rfl <;> rfl)
      (by intro c hc; simp only [List.mem_cons, List.not_mem_nil, or_false] at hc
          rcases hc with rfl | rfl <;> norm_num)).1
    (by intro c hc; simp only [List.mem_cons, List.not_mem_nil, or_false] at hc
        rcases hc with rfl | rfl <;> norm_num)

/-- `_process_symbol` always reports the symbol it was invoked for,
in both the normal and the `except` paths. -/
lemma process_symbol_symbol (st : TrState) (s : String)
    (f : Except String (List Bar)) :
    (process_symbol st s f).1.symbol = s := by
  cases f with
  | error e => rfl
  | ok bars =>
    by_cases h : bars.length < 2 <;> simp [process_symbol, h]

/-- C8: a failing bar fetch / TR-ATR computation for one symbol is
caught at the symbol boundary: the batch still yields exactly one
result per input, every result carries its own symbol, and the result
at a failing input is the neutral all-null record
`{tr: null, atr: null, previous_atr: null}`. -/
theorem C8_per_symbol_failure_isolated (st : TrState)
    (inputs : List (String × Except String (List Bar))) :
    (runBatch st inputs).1.length = inputs.length ∧
    (∀ i s f, inputs.get? i = some (s, f) →
      ∃ r, (runBatch st inputs).1.get? i = some r ∧ r.symbol = s) ∧
    (∀ i s e, inputs.get? i = some (s, .error e) →
      (runBatch st inputs).1.get? i = some (neutralResult s)) := by
  induction inputs generalizing st with
  | nil =>
    refine ⟨rfl, ?_, ?_⟩
    · intro i s f h
      simp at h
    · intro i s e h
      simp at h
  | cons p rest ih =>
    obtain ⟨s₀, f₀⟩ := p
    have ihs := ih (process_symbol st s₀ f₀).2
    refine ⟨?_, ?_, ?_⟩
    · simp [runBatch, ihs.1]
    · intro i s f h
      cases i with
      | zero =>
        simp only [List.get?_cons_zero, Option.some.injEq, Prod.mk.injEq] at h
        obtain ⟨rfl, rfl⟩ := h
        exact ⟨(process_symbol st s₀ f₀).1, by simp [runBatch],
          process_symbol_symbol st s₀ f₀⟩
      | succ n =>
        simp only [List.get?_cons_succ] at h
        have := ihs.2.1 n s f h
        simpa [runBatch] using this
    · intro i s e h
      cases i with
      | zero =>
        simp only [List.get?_cons_zero, Option.some.injEq, Prod.mk.injEq] at h
        obtain ⟨rfl, rfl⟩ := h
        simp [runBatch, process_symbol]
      | succ n =>
        simp only [List.get?_cons_succ] at h
        have := ihs.2.2 n s e h
        simpa [runBatch] using this

/-- C8 witness: a two-symbol batch where the second fetch throws — the
second result is the neutral all-null record for that symbol. -/
theorem C8_per_symbol_failure_isolated_witness :
    (runBatch (fun _ => none)
      [("A", Except.ok [{ date := 1, high := 10, low := 9, close := 9 },
                        { date := 2, high := 11, low := 10, close := 11 }]),
       ("B", Except.error "boom")]).1.get? 1
      = some (neutralResult "B") :=
  (C8_per_symbol_failure_isolated (fun _ => none) _).2.2 1 "B" "boom" rfl

end ATRBot
